import Mathlib

/-
Verification of the azure_storage_manager transfer engine against its
design specification.  The Python workers (workers.py), the one-level
blob listing (managers.py) and the lazy directory tree (main_window.py)
are shallowly embedded as executable Lean definitions; machine/float
arithmetic is modelled over Nat and the rationals.
-/

namespace AzureStorage

/-- One entry of a container listing, the dict shape produced by
managers.AzureResourceManager.get_blobs_in_container: full key, directory
flag (virtual directories carry a trailing delimiter), size in bytes. -/
structure Blob where
  name : String
  isDirectory : Bool
  size : Nat
deriving DecidableEq, Repr

/-- Number of occurrences of the path delimiter in a string. -/
def countSlash (s : String) : Nat := s.toList.count '/'

/-- Booleans: the first character list is a leading segment of the second
(structural stand-in for str.startswith, kept kernel-reducible). -/
def charsPre : List Char → List Char → Bool
  | [], _ => true
  | _ :: _, [] => false
  | a :: as, b :: bs => a == b && charsPre as bs

/-- Python s.startswith(p). -/
def strStartsWith (s p : String) : Bool := charsPre p.toList s.toList

/-- Python s[n:] (character slicing). -/
def strDrop (s : String) (n : Nat) : String := String.mk (s.toList.drop n)

/-- Python len(s) in characters. -/
def strLen (s : String) : Nat := s.toList.length

/-- Characters before the first path delimiter. -/
def takeUntilSlash : List Char → List Char
  | [] => []
  | c :: cs => if c == '/' then [] else c :: takeUntilSlash cs

/-- First delimiter-separated segment of a relative path,
Python rel.split("/")[0]. -/
def firstSegment (s : String) : String := String.mk (takeUntilSlash s.toList)

/-- Last delimiter-separated segment, Python s.split("/")[-1]: the
characters after the last delimiter. -/
def base_name (s : String) : String :=
  String.mk ((takeUntilSlash s.toList.reverse).reverse)

/-- Modelled from the spec: the Store Client one-level listing
(listDirect, spec section 6) that get_blobs_in_container wraps via the
SDK walk_blobs call with the default delimiter.  The flat store is a
list of (key, size) pairs; a key under the requested path whose
remainder contains the delimiter is folded into a single virtual
directory entry (first segment plus trailing delimiter, size 0,
deduplicated), otherwise it appears as a file entry. -/
def walk_blobs (store : List (String × Nat)) (pfx : String) : List Blob :=
  ((store.filter (fun kv => strStartsWith kv.1 pfx)).map (fun kv =>
    let rel := strDrop kv.1 (strLen pfx)
    if countSlash rel > 0 then
      { name := pfx ++ firstSegment rel ++ "/", isDirectory := true, size := 0 }
    else
      { name := kv.1, isDirectory := false, size := kv.2 })).eraseDups

/-- Environment of a DeleteWorker run: client acquisition outcome,
per-key delete outcome, and the (constant) cancellation flag. -/
structure DeleteEnv where
  clientOk : Bool
  deleteOk : String → Bool
  cancelled : Bool

/-- DeleteWorker.run, collection phase (workers.py 812-836): a selected
directory contributes the non-directory entries of ONE one-level listing
under its key (the code never recurses into the directory entries that
walk_blobs returns); a selected file contributes its own key. -/
def delete_resolve (store : List (String × Nat)) (items : List Blob) : List String :=
  items.foldl (fun acc item =>
    if item.isDirectory then
      acc ++ ((walk_blobs store item.name).filter (fun b => !b.isDirectory)).map Blob.name
    else acc ++ [item.name]) []

/-- DeleteWorker.run, deletion phase (workers.py 845-872): one
delete_blob call per resolved key, counting successes and failures and
emitting a position-based progress percentage after each success. -/
def delete_loop (env : DeleteEnv) (total : Nat) : List String → Nat → Nat × Nat × List Nat
  | [], _ => (0, 0, [])
  | nm :: rest, i =>
    let r := delete_loop env total rest (i + 1)
    if env.deleteOk nm then (r.1 + 1, r.2.1, ((i + 1) * 100 / total) :: r.2.2)
    else (r.1, r.2.1 + 1, r.2.2)

/-- DeleteWorker.run (workers.py 796-886): result is the final
delete_completed payload (success flag, message), the list of keys a
delete call was issued for, and the emitted progress percentages. -/
def delete_worker_run (store : List (String × Nat)) (items : List Blob) (env : DeleteEnv) :
    (Bool × String) × List String × List Nat :=
  if !env.clientOk then ((false, "Failed to get Azure client"), [], [])
  else if env.cancelled && !items.isEmpty then
    ((false, "Deletion cancelled by user"), [], [])
  else
    let resolved := delete_resolve store items
    if resolved.isEmpty then ((true, "No items to delete"), [], [])
    else if env.cancelled then ((false, "Deletion cancelled by user"), [], [])
    else
      let rr := delete_loop env resolved.length resolved 0
      let c := rr.1
      let f := rr.2.1
      let ps := rr.2.2
      if f == 0 then ((true, s!"Successfully deleted {c} items"), resolved, ps)
      else ((!(c == 0), s!"Deleted {c} items. {f} failed. Check logs for details."),
            resolved, ps)

/-- Delete environment in which the client is available, every delete
succeeds, and nothing is cancelled. -/
def deleteEnvOk : DeleteEnv :=
  { clientOk := true, deleteOk := fun _ => true, cancelled := false }

/-- A container holding one file directly under dir/ and one file one
level deeper. -/
def storeNested : List (String × Nat) :=
  [("dir/f1.txt", 5), ("dir/sub/a.txt", 7)]

/-- A container holding exactly 3 files and 0 subdirectories under dir/. -/
def storeFlat3 : List (String × Nat) :=
  [("dir/a.txt", 1), ("dir/b.txt", 2), ("dir/c.txt", 3)]

/-- The selected directory dir/. -/
def dirItem : Blob := { name := "dir/", isDirectory := true, size := 0 }

end AzureStorage
namespace AzureStorage

/-- C2: evaluation of the delete worker at the failing input.  Deleting
the selected directory dir/ over a store that also contains the deeper
descendant dir/sub/a.txt issues a delete call only for the one-level
file dir/f1.txt; the descendant is a key under the directory yet is
never resolved or deleted, contradicting the claimed full recursive
resolution.  The claimed 3-file scenario itself does hold: three files
and no subdirectory yield exactly 3 delete calls and the message
"Successfully deleted 3 items". -/
theorem claim2_delete_not_recursive :
    delete_resolve storeNested [dirItem] = ["dir/f1.txt"] ∧
    ("dir/sub/a.txt", 7) ∈ storeNested ∧
    strStartsWith "dir/sub/a.txt" "dir/" = true ∧
    "dir/sub/a.txt" ∉ (delete_worker_run storeNested [dirItem] deleteEnvOk).2.1 ∧
    delete_worker_run storeFlat3 [dirItem] deleteEnvOk =
      ((true, "Successfully deleted 3 items"),
       ["dir/a.txt", "dir/b.txt", "dir/c.txt"], [33, 66, 100]) := by
  decide

/-- MainWindow._fetch_directory_contents filtering step (main_window.py
610-632): from the one-level-or-deeper listing under a directory key,
keep an entry unless it is the key itself, provided it starts with the
key; a directory entry survives when its relative path holds at most one
delimiter, a file entry when its relative path holds none. -/
def fetch_directory_contents (pfx : String) (blobs : List Blob) : List Blob :=
  blobs.filter (fun b =>
    !(b.name == pfx) &&
    strStartsWith b.name pfx &&
    (let rel := strDrop b.name (strLen pfx)
     if b.isDirectory then decide (countSlash rel ≤ 1) else countSlash rel == 0))

/-- Tree node as on_directory_expanded sees it: the UserRole blob data
and the display texts of its current children. -/
structure UINode where
  blobData : Option Blob
  childTexts : List String
deriving DecidableEq, Repr

/-- MainWindow.on_directory_expanded (main_window.py 557-598): ignores
non-directories, treats a node with exactly one child whose text is not
the placeholder as already loaded, otherwise (selection permitting)
replaces the children with a fresh placeholder and starts a background
fetch.  Returns the updated node and whether a fetch was started. -/
def on_directory_expanded (node : UINode) (selectionOk : Bool) : UINode × Bool :=
  match node.blobData with
  | none => (node, false)
  | some b =>
    if !b.isDirectory then (node, false)
    else if node.childTexts.length == 1 &&
            !((node.childTexts.headD "") == "Loading...") then (node, false)
    else if !selectionOk then (node, false)
    else ({ node with childTexts := ["Loading..."] }, true)

/-- A directory node whose direct children have already been loaded,
the placeholder having been replaced by two real children. -/
def loadedNode2 : UINode :=
  { blobData := some dirItem, childTexts := ["a.txt", "b.txt"] }

/-- C8: evaluation at the failing input.  Expanding an already-loaded
directory node that holds two real children starts a new fetch and
throws the children away in favour of a fresh placeholder, because the
already-loaded guard only recognises a single-child node; the claimed
no-op only happens in the one-child case (second conjunct). -/
theorem claim8_expansion_refetches_loaded_node :
    on_directory_expanded loadedNode2 true =
      ({ blobData := some dirItem, childTexts := ["Loading..."] }, true) ∧
    on_directory_expanded { blobData := some dirItem, childTexts := ["No items"] } true =
      ({ blobData := some dirItem, childTexts := ["No items"] }, false) := by
  decide

end AzureStorage
namespace AzureStorage

/-- C7: the loaded children of a directory node are exactly the direct
children.  Over any listing whose entries all start with the node key
(as a prefix listing does), an entry is kept by the filtering step iff
it is not the key itself and its relative path after the key holds at
most one delimiter when it is a directory, and none when it is a file. -/
theorem claim7_children_one_level (pfx : String) (blobs : List Blob)
    (h : ∀ b ∈ blobs, strStartsWith b.name pfx = true) (b : Blob) :
    b ∈ fetch_directory_contents pfx blobs ↔
      b ∈ blobs ∧ b.name ≠ pfx ∧
      (b.isDirectory = true → countSlash (strDrop b.name (strLen pfx)) ≤ 1) ∧
      (b.isDirectory = false → countSlash (strDrop b.name (strLen pfx)) = 0) := by
  rw [fetch_directory_contents, List.mem_filter]
  apply and_congr_right
  intro hb
  have hsw := h b hb
  cases hdir : b.isDirectory <;> simp [hdir, hsw]

end AzureStorage
namespace AzureStorage

/-- Rendered transfer rate: the exact "0 B/s" early-return branches of
the source versus a true rate of q bytes per second (rendered there as
format_size(speed)+"/s"; floats modelled as rationals). -/
inductive Rate
  | zero
  | bps (q : ℚ)
deriving DecidableEq, Repr

/-- Rendered ETA: the "Calculating..." placeholder versus a definite
estimate of q seconds (rendered there through format_time). -/
inductive Eta
  | calculating
  | seconds (q : ℚ)
deriving DecidableEq, Repr

/-- Inputs read by TransferWorker._calculate_speed_and_eta: whether
start_time is set, the elapsed wall-clock seconds, and the shared
counters of the job. -/
structure SpeedEtaInput where
  hasStart : Bool
  elapsed : ℚ
  bytesTransferred : Nat
  totalBytes : Nat
  completedFiles : Nat
  totalFiles : Nat
  sizeCalculationComplete : Bool

/-- TransferWorker._calculate_speed_and_eta (workers.py 220-269): a pure
function of the counters and elapsed time, returning the quintuple that
is emitted on speed_eta_updated.  No start time, nothing transferred, or
zero elapsed time short-circuit to the zero rate; otherwise the speed is
bytes/elapsed and the ETA is byte-based when a total-size estimate and a
positive speed exist, file-count-based as a fallback, and indeterminate
last. -/
def calculate_speed_and_eta (s : SpeedEtaInput) : Rate × Eta × Nat × Nat × Bool :=
  if !s.hasStart || s.bytesTransferred == 0 then
    (Rate.zero, Eta.calculating, 0, s.totalBytes, s.sizeCalculationComplete)
  else if s.elapsed == 0 then
    (Rate.zero, Eta.calculating, s.bytesTransferred, s.totalBytes,
      s.sizeCalculationComplete)
  else
    let speed : ℚ := (s.bytesTransferred : ℚ) / s.elapsed
    let eta :=
      if 0 < s.totalBytes ∧ 0 < speed then
        Eta.seconds ((max 0 ((s.totalBytes : ℚ) - (s.bytesTransferred : ℚ))) / speed)
      else if 0 < s.completedFiles ∧ 0 < s.totalFiles then
        let fps : ℚ := (s.completedFiles : ℚ) / s.elapsed
        if 0 < fps then
          Eta.seconds (((s.totalFiles : ℚ) - (s.completedFiles : ℚ)) / fps)
        else Eta.calculating
      else Eta.calculating
    (Rate.bps speed, eta, s.bytesTransferred, s.totalBytes, s.sizeCalculationComplete)

/-- C5: the speed/ETA computation is total, never degenerate, and obeys
the stated priority order.  With no bytes transferred, no start time or
no elapsed time it reports the zero rate and an indeterminate ETA;
otherwise the speed bytes/elapsed is positive and the ETA is byte-based
once totalBytes is positive, file-count-based when file counts are
positive, and indeterminate when neither source of information exists. -/
theorem claim5_speed_eta_policy (s : SpeedEtaInput) :
    ((s.hasStart = false ∨ s.bytesTransferred = 0 ∨ s.elapsed = 0) →
      (calculate_speed_and_eta s).1 = Rate.zero ∧
      (calculate_speed_and_eta s).2.1 = Eta.calculating) ∧
    (s.hasStart = true → 0 < s.bytesTransferred → 0 < s.elapsed →
      0 < (s.bytesTransferred : ℚ) / s.elapsed ∧
      (calculate_speed_and_eta s).1 =
        Rate.bps ((s.bytesTransferred : ℚ) / s.elapsed) ∧
      (0 < s.totalBytes →
        (calculate_speed_and_eta s).2.1 =
          Eta.seconds ((max 0 ((s.totalBytes : ℚ) - (s.bytesTransferred : ℚ))) /
            ((s.bytesTransferred : ℚ) / s.elapsed))) ∧
      (s.totalBytes = 0 → 0 < s.completedFiles → 0 < s.totalFiles →
        (calculate_speed_and_eta s).2.1 =
          Eta.seconds (((s.totalFiles : ℚ) - (s.completedFiles : ℚ)) /
            ((s.completedFiles : ℚ) / s.elapsed))) ∧
      (s.totalBytes = 0 → s.completedFiles = 0 ∨ s.totalFiles = 0 →
        (calculate_speed_and_eta s).2.1 = Eta.calculating)) := by
  constructor
  · intro h
    by_cases hc : (!s.hasStart || s.bytesTransferred == 0) = true
    · simp [calculate_speed_and_eta, hc]
    · rcases h with h | h | h
      · simp [h] at hc
      · simp [h] at hc
      · simp [calculate_speed_and_eta, hc, h]
  · intro h1 h2 h3
    have hb0 : s.bytesTransferred ≠ 0 := Nat.pos_iff_ne_zero.mp h2
    have he0 : s.elapsed ≠ 0 := ne_of_gt h3
    have hsp : 0 < (s.bytesTransferred : ℚ) / s.elapsed :=
      div_pos (by exact_mod_cast h2) h3
    have hfp : 0 < s.completedFiles → 0 < (s.completedFiles : ℚ) / s.elapsed :=
      fun hc => div_pos (by exact_mod_cast hc) h3
    refine ⟨hsp, ?_, ?_, ?_, ?_⟩
    · simp [calculate_speed_and_eta, h1, hb0, he0]
    · intro htb
      simp [calculate_speed_and_eta, h1, hb0, he0, htb, hsp]
    · intro htb hc hf
      simp [calculate_speed_and_eta, h1, hb0, he0, htb, hc, hf, hfp hc]
    · intro htb hcf
      rcases hcf with hc | hf
      · simp [calculate_speed_and_eta, h1, hb0, he0, htb, hc]
      · simp [calculate_speed_and_eta, h1, hb0, he0, htb, hf]

end AzureStorage
namespace AzureStorage

/-- Environment of one server-side copy: the copy-status string the i-th
metadata poll observes, and the cancellation flag as read on the i-th
poll iteration. -/
structure PollEnv where
  statusAt : Nat → String
  cancelledAt : Nat → Bool

/-- Copy-status polling loop of TransferWorker._transfer_single_file
(workers.py 505-522).  The source is an unbounded while True; the fuel
argument counts how many iterations we observe, and a none result means
the loop was still running after that many iterations.  Each iteration
first reads the cancellation flag (returning failure when set), then
polls the destination metadata; "success" and "failed" are terminal,
"pending"/"copying" sleep 0.1 s and poll again, and any other status is
treated as failure.  The returned list records the indices of the
metadata polls that were performed. -/
def poll_copy (env : PollEnv) : Nat → Nat → Option Bool × List Nat
  | _, 0 => (none, [])
  | i, fuel + 1 =>
    if env.cancelledAt i then (some false, [])
    else
      let st := env.statusAt i
      if st == "success" then (some true, [i])
      else if st == "failed" then (some false, [i])
      else if st == "pending" || st == "copying" then
        let r := poll_copy env (i + 1) fuel
        (r.1, i :: r.2)
      else (some false, [i])

/-- A copy whose status stays "pending" forever, never cancelled. -/
def pendingForever : PollEnv :=
  { statusAt := fun _ => "pending", cancelledAt := fun _ => false }

/-- On a never-terminating pending copy with no cancellation the poll
loop is still running after any number of iterations. -/
theorem poll_copy_pending_none (fuel i : Nat) :
    (poll_copy pendingForever i fuel).1 = none := by
  induction fuel generalizing i with
  | zero => rfl
  | succ n ih => simpa [poll_copy, pendingForever] using ih (i + 1)

/-- C1 counterexample: the claimed 300 s wall-clock poll budget does not
exist.  At the 0.1 s sleep interval of the source, 3000 poll iterations
span the full claimed budget; after 3001 iterations of a copy that stays
"pending" (never cancelled) the loop has produced no outcome at all — in
particular no TimedOut outcome and no per-file failure — so the budget
can never force termination. -/
theorem claim1_counterexample :
    (poll_copy pendingForever 0 3001).1 = none ∧
    (poll_copy pendingForever 0 3001).1 ≠ some false := by
  refine ⟨poll_copy_pending_none 3001 0, ?_⟩
  rw [poll_copy_pending_none 3001 0]
  exact Option.noConfusion

/-- C1 amended: the per-file polling loop keeps polling exactly while
the observed status is "pending" or "copying" — cancellation stops it
with a failure before polling, "success" and "failed" are terminal, any
unrecognised status is treated as failure — but it observes no wall
clock budget whatsoever: whenever every status it can observe is
"pending" or "copying" and cancellation never arrives, the loop runs
beyond every bound without producing any outcome. -/
theorem claim1_amended_no_poll_budget (env : PollEnv) (i fuel : Nat) :
    (env.cancelledAt i = true → poll_copy env i (fuel + 1) = (some false, [])) ∧
    (env.cancelledAt i = false → env.statusAt i = "success" →
      poll_copy env i (fuel + 1) = (some true, [i])) ∧
    (env.cancelledAt i = false → env.statusAt i = "failed" →
      poll_copy env i (fuel + 1) = (some false, [i])) ∧
    (env.cancelledAt i = false →
      (env.statusAt i = "pending" ∨ env.statusAt i = "copying") →
      poll_copy env i (fuel + 1) =
        ((poll_copy env (i + 1) fuel).1, i :: (poll_copy env (i + 1) fuel).2)) ∧
    (env.cancelledAt i = false → env.statusAt i ∉
        (["success", "failed", "pending", "copying"] : List String) →
      poll_copy env i (fuel + 1) = (some false, [i])) ∧
    ((∀ j, env.statusAt j = "pending" ∨ env.statusAt j = "copying") →
      (∀ j, env.cancelledAt j = false) →
      ∀ n, (poll_copy env i n).1 = none) := by
  refine ⟨?_, ?_, ?_, ?_, ?_, ?_⟩
  · intro hc; simp [poll_copy, hc]
  · intro hc hs; simp [poll_copy, hc, hs]
  · intro hc hs; simp [poll_copy, hc, hs]
  · intro hc hs
    rcases hs with hs | hs <;> simp [poll_copy, hc, hs]
  · intro hc hs
    simp only [List.mem_cons, List.mem_singleton, not_or] at hs
    obtain ⟨h1, h2, h3, h4⟩ := hs
    simp [poll_copy, hc, h1, h2, h3, by simpa using h4]
  · intro hst hcn n
    induction n generalizing i with
    | zero => rfl
    | succ m ih =>
      rcases hst i with hs | hs <;> simp [poll_copy, hcn i, hs, ih (i + 1)]

end AzureStorage
namespace AzureStorage

/-- C1 witness: the amended characterisation applied to the concrete
always-pending environment — the first iteration keeps polling, and
after 500 iterations there is still no outcome. -/
theorem claim1_witness :
    poll_copy pendingForever 0 1 =
      ((poll_copy pendingForever 1 0).1, 0 :: (poll_copy pendingForever 1 0).2) ∧
    (poll_copy pendingForever 0 500).1 = none := by
  have h := claim1_amended_no_poll_budget pendingForever 0 0
  exact ⟨h.2.2.2.1 rfl (Or.inl rfl),
    h.2.2.2.2.2 (fun _ => Or.inl rfl) (fun _ => rfl) 500⟩

/-- Options dict of a cross-account transfer,
options.get("preserve_structure", True) / options.get("overwrite", False). -/
structure TransferOptions where
  preserve_structure : Bool := true
  overwrite : Bool := false

/-- Observable store interactions of one cross-account file copy. -/
inductive TAct
  | getDestClient
  | probeDest
  | issueSas
  | startCopy (dest : String)
  | pollProps (i : Nat)
deriving DecidableEq, Repr

/-- Environment of TransferWorker._transfer_single_file: whether the
destination client can be obtained, whether the destination-existence
metadata probe succeeds (raising is "does not exist"), the SAS URL if
one can be generated, and the polling observations. -/
structure SingleEnv where
  destClientOk : Bool
  probeSucceeds : Bool
  sasUrl : Option String
  statusAt : Nat → String
  cancelledAt : Nat → Bool

/-- TransferWorker._transfer_single_file (workers.py 460-526): computes
the destination key from preserve_structure, acquires the destination
client, and — when overwrite is off — probes the destination and
returns success immediately if the probe succeeds (skip-existing); a
probe exception falls through to the copy.  Then a SAS URL is generated
(failure to do so fails the file), the server-side copy is started and
polled.  Returns the outcome (none when the poll loop is still running
after the given fuel) and the ordered list of store interactions. -/
def transfer_single_file (opts : TransferOptions) (env : SingleEnv)
    (srcName : String) (fuel : Nat) : Option Bool × List TAct :=
  let destName := if opts.preserve_structure then srcName else base_name srcName
  if !env.destClientOk then (some false, [TAct.getDestClient])
  else if !opts.overwrite && env.probeSucceeds then
    (some true, [TAct.getDestClient, TAct.probeDest])
  else
    let pre := if !opts.overwrite then [TAct.getDestClient, TAct.probeDest]
               else [TAct.getDestClient]
    match env.sasUrl with
    | none => (some false, pre ++ [TAct.issueSas])
    | some _ =>
      let r := poll_copy { statusAt := env.statusAt, cancelledAt := env.cancelledAt } 0 fuel
      (r.1, pre ++ [TAct.issueSas, TAct.startCopy destName] ++ r.2.map TAct.pollProps)

/-- Interpretation of an action trace over the destination object store
(key to content): only starting a server-side copy mutates the
destination, writing the source content at the destination key. -/
def apply_dest (src : String) (acts : List TAct) (d : String → Option String) :
    String → Option String :=
  acts.foldl (fun st a =>
    match a with
    | TAct.startCopy dest => fun k => if k == dest then some src else st k
    | _ => st) d

/-- C6: skip-existing semantics of a cross-account copy with overwrite
disabled.  When the destination metadata probe succeeds the file returns
success after exactly the client acquisition and the probe: no SAS URL
is issued, no copy is started, and the destination contents are left
byte-for-byte unchanged under the trace interpretation.  When the probe
raises, it is treated as mere absence: provided a SAS URL is available,
the copy proceeds (the SAS issuance and the copy start appear in the
trace). -/
theorem claim6_overwrite_skip (opts : TransferOptions) (env : SingleEnv)
    (srcName src : String) (fuel : Nat) (d : String → Option String)
    (hov : opts.overwrite = false) (hcl : env.destClientOk = true) :
    (env.probeSucceeds = true →
      transfer_single_file opts env srcName fuel =
        (some true, [TAct.getDestClient, TAct.probeDest]) ∧
      TAct.issueSas ∉ (transfer_single_file opts env srcName fuel).2 ∧
      (∀ dn, TAct.startCopy dn ∉ (transfer_single_file opts env srcName fuel).2) ∧
      apply_dest src (transfer_single_file opts env srcName fuel).2 d = d) ∧
    (env.probeSucceeds = false → ∀ u, env.sasUrl = some u →
      TAct.issueSas ∈ (transfer_single_file opts env srcName fuel).2 ∧
      (TAct.startCopy (if opts.preserve_structure then srcName else base_name srcName))
        ∈ (transfer_single_file opts env srcName fuel).2) := by
  constructor
  · intro hp
    have he : transfer_single_file opts env srcName fuel =
        (some true, [TAct.getDestClient, TAct.probeDest]) := by
      simp [transfer_single_file, hov, hcl, hp]
    refine ⟨he, ?_, ?_, ?_⟩
    · rw [he]; simp
    · intro dn; rw [he]; simp
    · rw [he]; rfl
  · intro hp u hu
    cases hps : opts.preserve_structure <;>
      simp [transfer_single_file, hov, hcl, hp, hu, hps]

end AzureStorage
namespace AzureStorage

/-- A copy environment whose destination object already exists. -/
def skipEnv : SingleEnv :=
  { destClientOk := true, probeSucceeds := true, sasUrl := some "sas",
    statusAt := fun _ => "success", cancelledAt := fun _ => false }

/-- C6 witness: a concrete overwrite-disabled copy whose destination
already exists is counted a success after client acquisition and probe
only, and an empty destination store is left unchanged. -/
theorem claim6_witness :
    transfer_single_file {} skipEnv "dir/a.txt" 5 =
      (some true, [TAct.getDestClient, TAct.probeDest]) ∧
    apply_dest "payload" (transfer_single_file {} skipEnv "dir/a.txt" 5).2
      (fun _ => none) = (fun _ => none) := by
  have h := (claim6_overwrite_skip {} skipEnv "dir/a.txt" "payload" 5
    (fun _ => none) rfl rfl).1 rfl
  exact ⟨h.1, h.2.2.2⟩

/-- utils.SIZE_NAMES. -/
def size_names : List String := ["B", "KB", "MB", "GB", "TB"]

/-- Unit-scaling loop of utils.format_size: divide by 1024 while the
value is at least 1024 and larger units remain (at most four steps, so
fuel 4 is exact). -/
def format_size_go (fuel i : Nat) (q : ℚ) : Nat × ℚ :=
  match fuel with
  | 0 => (i, q)
  | fuel + 1 =>
    if 1024 ≤ q ∧ i < size_names.length - 1 then format_size_go fuel (i + 1) (q / 1024)
    else (i, q)

/-- utils.format_size: "0 B" for zero bytes, otherwise the scaled value
rendered with one decimal digit (floats modelled as rationals and the
%.1f rendering as rounding to the nearest tenth). -/
def format_size (n : Nat) : String :=
  if n == 0 then "0 B"
  else
    let p := format_size_go 4 0 (n : ℚ)
    let t : ℤ := round (p.2 * 10)
    let whole := t / 10
    let tenth := (t % 10).toNat
    let unit := size_names.getD p.1 ""
    s!"{whole}.{tenth} {unit}"

/-- Environment of TransferWorker.run: the cancellation flag as read
before submitting the i-th file and before processing the j-th finished
future, the per-file copy outcome, the per-file size used for byte
accounting, and the running total-size estimate visible when the j-th
future is processed (written concurrently by the size calculator). -/
structure TransferRunEnv where
  cancelS : Nat → Bool
  cancelC : Nat → Bool
  result : Nat → Bool
  fileSize : Nat → Nat
  totalBytesAt : Nat → Nat

/-- Submission loop of TransferWorker.run (workers.py 326-334): files
are submitted in order until the cancellation flag is first observed,
skipping directory entries. -/
def submit_loop (env : TransferRunEnv) (files : List Blob) : List Nat :=
  (((files.enum).takeWhile (fun p => !env.cancelS p.1)).filter
      (fun p => !p.2.isDirectory)).map Prod.fst

/-- Completion loop of TransferWorker.run (workers.py 337-391) over the
submitted indices (as_completed yields them in a nondeterministic order;
the list argument is that order, and every property proved below is
insensitive to it).  Each iteration first reads the cancellation flag
and stops when set; a successful file bumps the counters and emits a
progress percentage — byte-based and capped at 99 whenever a nonzero
total-size estimate exists, file-count-based otherwise — recorded here
together with which formula produced it; a failed file only logs.
Returns final completedFiles, final bytesTransferred, and the emitted
(percentage, byteBased) pairs. -/
def completion_loop (env : TransferRunEnv) (n : Nat) :
    List Nat → Nat → Nat → Nat → Nat × Nat × List (Nat × Bool)
  | [], _, c, b => (c, b, [])
  | i :: rest, j, c, b =>
    if env.cancelC j then (c, b, [])
    else if env.result i then
      let b2 := b + env.fileSize i
      let tb := env.totalBytesAt j
      let p := if 0 < tb then min (b2 * 100 / tb) 99 else (c + 1) * 100 / n
      let r := completion_loop env n rest (j + 1) (c + 1) b2
      (r.1, r.2.1, (p, decide (0 < tb)) :: r.2.2)
    else completion_loop env n rest (j + 1) c b

/-- TransferWorker.run (workers.py 271-398): resolves to the final
transfer_completed payload plus final counters and emitted progress.
An empty file list completes successfully at once; otherwise, after the
two loops, the one completion event is emitted — success iff at least
one file completed — with the completed/total message, regardless of
cancellation. -/
def transfer_run (files : List Blob) (env : TransferRunEnv) :
    (Bool × String) × Nat × Nat × List (Nat × Bool) :=
  if files.length == 0 then ((true, "No files to transfer"), 0, 0, [])
  else
    let n := files.length
    let r := completion_loop env n (submit_loop env files) 0 0 0
    let c := r.1
    let b := r.2.1
    let fs := format_size b
    ((decide (0 < c), s!"Successfully transferred {c}/{n} files ({fs})"), c, b, r.2.2)

/-- Environment of an UploadWorker run. -/
structure UploadEnv where
  clientOk : Bool
  uploadOk : Nat → Bool
  cancelledAt : Nat → Bool

/-- Per-file loop of UploadWorker.run (workers.py 706-737): checks the
cancellation flag first (an Option none result is the cancelled early
return), counts a successful upload and emits its file-count progress,
and continues past a failed one.  Arguments: next index, files left,
completed so far. -/
def upload_loop (env : UploadEnv) (n : Nat) : Nat → Nat → Nat → Option Nat × List Nat
  | _, 0, c => (some c, [])
  | i, r + 1, c =>
    if env.cancelledAt i then (none, [])
    else if env.uploadOk i then
      let rest := upload_loop env n (i + 1) r (c + 1)
      (rest.1, ((c + 1) * 100 / n) :: rest.2)
    else upload_loop env n (i + 1) r c

/-- UploadWorker.run (workers.py 694-751) on n files: final
upload_completed payload and emitted progress.  Success requires every
file to have uploaded (completed == total); a partial success yields a
failure flag with the "Uploaded X of Y" message. -/
def upload_worker_run (n : Nat) (env : UploadEnv) : (Bool × String) × List Nat :=
  if !env.clientOk then ((false, "Failed to get Azure client"), [])
  else
    let r := upload_loop env n 0 n 0
    match r.1 with
    | none => ((false, "Upload cancelled by user"), r.2)
    | some c =>
      if c == n then ((true, s!"Successfully uploaded {c} files"), r.2)
      else ((false, s!"Uploaded {c} of {n} files. Check logs for errors."), r.2)

/-- Environment of a DownloadWorker run. -/
structure DownloadEnv where
  ok : Nat → Bool
  cancelledAt : Nat → Bool

/-- Per-file loop of DownloadWorker.run (workers.py 71-91): cancellation
checked first (none = cancelled early return), defensive skip of
directory entries, successful downloads counted with file-count
progress, failures logged and passed over. -/
def download_loop (env : DownloadEnv) (n : Nat) :
    List Blob → Nat → Nat → Option Nat × List Nat
  | [], _, c => (some c, [])
  | blob :: rest, i, c =>
    if env.cancelledAt i then (none, [])
    else if blob.isDirectory then download_loop env n rest (i + 1) c
    else if env.ok i then
      let r := download_loop env n rest (i + 1) (c + 1)
      (r.1, ((c + 1) * 100 / n) :: r.2)
    else download_loop env n rest (i + 1) c

/-- DownloadWorker.run (workers.py 45-98) on an already-resolved file
list: final download_completed payload and emitted progress.  The
completion event is successful iff at least one file downloaded. -/
def download_worker_run (files : List Blob) (env : DownloadEnv) :
    (Bool × String) × List Nat :=
  if files.length == 0 then ((true, "No files to download"), [])
  else
    let n := files.length
    let r := download_loop env n files 0 0
    match r.1 with
    | none => ((false, "Download cancelled"), r.2)
    | some c => ((decide (0 < c), s!"Successfully downloaded {c}/{n} files"), r.2)

/-- Number of indices k in [i, i+len) whose outcome flag is set. -/
def countOk (g : Nat → Bool) : Nat → Nat → Nat
  | _, 0 => 0
  | i, len + 1 => (if g i then 1 else 0) + countOk g (i + 1) len

end AzureStorage
namespace AzureStorage

theorem countOk_le (g : Nat → Bool) (i len : Nat) : countOk g i len ≤ len := by
  induction len generalizing i with
  | zero => simp [countOk]
  | succ m ih =>
    have := ih (i + 1)
    by_cases h : g i <;> simp [countOk, h] <;> omega

theorem countOk_pos_iff (g : Nat → Bool) (i len : Nat) :
    0 < countOk g i len ↔ ∃ k, k < len ∧ g (i + k) = true := by
  induction len generalizing i with
  | zero => simp [countOk]
  | succ m ih =>
    by_cases h : g i
    · simp only [countOk, h, if_true]
      constructor
      · intro _
        exact ⟨0, Nat.succ_pos m, by simpa using h⟩
      · intro _
        omega
    · simp only [countOk]
      rw [if_neg h, Nat.zero_add, ih (i + 1)]
      constructor
      · rintro ⟨k, hk, hg⟩
        have he : i + 1 + k = i + (k + 1) := by omega
        rw [he] at hg
        exact ⟨k + 1, by omega, hg⟩
      · rintro ⟨k, hk, hg⟩
        cases k with
        | zero => exact absurd (by simpa using hg) h
        | succ k2 =>
          have he : i + (k2 + 1) = i + 1 + k2 := by omega
          rw [he] at hg
          exact ⟨k2, by omega, hg⟩

theorem countOk_eq_len_iff (g : Nat → Bool) (i len : Nat) :
    countOk g i len = len ↔ ∀ k, k < len → g (i + k) = true := by
  induction len generalizing i with
  | zero => simp [countOk]
  | succ m ih =>
    by_cases h : g i
    · simp only [countOk]
      rw [if_pos h]
      constructor
      · intro hlen k hk
        cases k with
        | zero => simpa using h
        | succ k2 =>
          have hm : countOk g (i + 1) m = m := by omega
          have he : i + (k2 + 1) = i + 1 + k2 := by omega
          rw [he]
          exact (ih (i + 1)).1 hm k2 (by omega)
      · intro hall
        have hm : countOk g (i + 1) m = m := by
          apply (ih (i + 1)).2
          intro k hk
          have he : i + 1 + k = i + (k + 1) := by omega
          rw [he]
          exact hall (k + 1) (by omega)
        omega
    · simp only [countOk]
      rw [if_neg h, Nat.zero_add]
      constructor
      · intro hlen
        exact absurd hlen (by have := countOk_le g (i + 1) m; omega)
      · intro hall
        exact absurd (by simpa using hall 0 (by omega)) h

theorem upload_loop_uncancelled (env : UploadEnv) (n : Nat)
    (hc : ∀ i, env.cancelledAt i = false) (r : Nat) :
    ∀ i c, (upload_loop env n i r c).1 = some (c + countOk env.uploadOk i r) := by
  induction r with
  | zero => intro i c; simp [upload_loop, countOk]
  | succ m ih =>
    intro i c
    by_cases h : env.uploadOk i <;>
      simp [upload_loop, hc i, h, countOk, ih (i + 1)] <;> omega

theorem download_loop_uncancelled (env : DownloadEnv) (n : Nat)
    (hc : ∀ i, env.cancelledAt i = false) (l : List Blob)
    (hnd : ∀ b ∈ l, b.isDirectory = false) :
    ∀ i c, (download_loop env n l i c).1 = some (c + countOk env.ok i l.length) := by
  induction l with
  | nil => intro i c; simp [download_loop, countOk]
  | cons blob rest ih =>
    intro i c
    have hb : blob.isDirectory = false := hnd blob (List.mem_cons_self blob rest)
    have hrest : ∀ b ∈ rest, b.isDirectory = false :=
      fun b hbm => hnd b (List.mem_cons_of_mem blob hbm)
    by_cases h : env.ok i <;>
      simp [download_loop, hc i, hb, h, countOk, ih hrest (i + 1)] <;> omega

theorem completion_loop_uncancelled (env : TransferRunEnv) (n : Nat)
    (hc : ∀ j, env.cancelC j = false) (idxs : List Nat) :
    ∀ j c b, (completion_loop env n idxs j c b).1 =
      c + (idxs.filter (fun i => env.result i)).length := by
  induction idxs with
  | nil => intro j c b; simp [completion_loop]
  | cons i rest ih =>
    intro j c b
    by_cases h : env.result i <;>
      simp [completion_loop, hc j, h, ih (j + 1)] <;> omega

theorem submit_loop_uncancelled (env : TransferRunEnv) (files : List Blob)
    (hc : ∀ i, env.cancelS i = false) (hnd : ∀ b ∈ files, b.isDirectory = false) :
    submit_loop env files = List.range files.length := by
  have h1 : (files.enum).takeWhile (fun p => !env.cancelS p.1) = files.enum :=
    List.takeWhile_eq_self_iff.2 (fun p _ => by simp [hc p.1])
  have h2 : (files.enum).filter (fun p => !p.2.isDirectory) = files.enum :=
    List.filter_eq_self.2 (fun p hp => by
      have hm : p.2 ∈ files := List.get?_mem (List.mem_enum_iff_get?.1 hp)
      simp [hnd p.2 hm])
  rw [submit_loop, h1, h2, List.enum_map_fst]

theorem delete_loop_counts (env : DeleteEnv) (total : Nat) (l : List String) :
    ∀ i, (delete_loop env total l i).1 = (l.filter env.deleteOk).length ∧
      (delete_loop env total l i).2.1 =
        (l.filter (fun nm => !env.deleteOk nm)).length := by
  induction l with
  | nil => intro i; simp [delete_loop]
  | cons nm rest ih =>
    intro i
    by_cases h : env.deleteOk nm <;>
      simp [delete_loop, h, (ih (i + 1)).1, (ih (i + 1)).2]

end AzureStorage
namespace AzureStorage

/-- C3 counterexample: an upload of two files of which exactly the first
succeeds.  At least one file succeeded, yet the completion event carries
success = false with the partial-count message, so the
success-iff-at-least-one rule does not hold for uploads. -/
def uploadCexEnv : UploadEnv :=
  { clientOk := true, uploadOk := fun i => i == 0, cancelledAt := fun _ => false }

/-- C3 counterexample theorem: see uploadCexEnv. -/
theorem claim3_counterexample :
    (upload_worker_run 2 uploadCexEnv).1 =
      (false, "Uploaded 1 of 2 files. Check logs for errors.") ∧
    uploadCexEnv.uploadOk 0 = true := by
  decide

/-- C3 amended: for downloads, deletions and cross-account transfers
that run to completion uncancelled on a non-empty resolved file list,
the completion event is successful iff at least one file succeeded; an
upload, however, is reported successful iff every file succeeded — a
partial upload success is reported as a failure with an
"Uploaded X of Y" message. -/
theorem claim3_amended_success_iff
    (files : List Blob) (env : TransferRunEnv)
    (dfiles : List Blob) (denv : DownloadEnv)
    (n : Nat) (uenv : UploadEnv)
    (store : List (String × Nat)) (items : List Blob) (deenv : DeleteEnv) :
    ((∀ i, env.cancelS i = false) → (∀ j, env.cancelC j = false) →
      (∀ b ∈ files, b.isDirectory = false) → files ≠ [] →
      ((transfer_run files env).1.1 = true ↔
        ∃ k, k < files.length ∧ env.result k = true)) ∧
    ((∀ i, denv.cancelledAt i = false) → (∀ b ∈ dfiles, b.isDirectory = false) →
      dfiles ≠ [] →
      ((download_worker_run dfiles denv).1.1 = true ↔
        ∃ k, k < dfiles.length ∧ denv.ok k = true)) ∧
    (deenv.clientOk = true → deenv.cancelled = false →
      delete_resolve store items ≠ [] →
      ((delete_worker_run store items deenv).1.1 = true ↔
        ∃ nm ∈ delete_resolve store items, deenv.deleteOk nm = true)) ∧
    (uenv.clientOk = true → (∀ i, uenv.cancelledAt i = false) → 0 < n →
      ((upload_worker_run n uenv).1.1 = true ↔
        ∀ k, k < n → uenv.uploadOk k = true)) := by
  refine ⟨?_, ?_, ?_, ?_⟩
  · intro hcs hcc hnd hne
    have hn : ¬(files.length == 0) = true := by
      simp [List.length_eq_zero]; exact hne
    simp only [transfer_run, submit_loop_uncancelled env files hcs hnd,
      completion_loop_uncancelled env files.length hcc, Nat.zero_add]
    rw [if_neg hn]
    dsimp only
    simp only [decide_eq_true_eq]
    rw [List.length_pos, Ne, List.filter_eq_nil]
    push_neg
    constructor
    · rintro ⟨a, ha, hr⟩
      exact ⟨a, List.mem_range.1 ha, by simpa using hr⟩
    · rintro ⟨k, hk, hr⟩
      exact ⟨k, List.mem_range.2 hk, by simpa using hr⟩
  · intro hc hnd hne
    have hn : ¬(dfiles.length == 0) = true := by
      simp [List.length_eq_zero]; exact hne
    simp only [download_worker_run,
      download_loop_uncancelled denv dfiles.length hc dfiles hnd, Nat.zero_add]
    rw [if_neg hn]
    dsimp only
    simp only [decide_eq_true_eq]
    rw [countOk_pos_iff]
    simp
  · intro hcl hcn hne
    have hres : ¬(delete_resolve store items).isEmpty = true := by
      simpa [List.isEmpty_iff] using hne
    have hc1 := (delete_loop_counts deenv (delete_resolve store items).length
      (delete_resolve store items)) 0
    by_cases hf : ((delete_resolve store items).filter
        (fun nm => !deenv.deleteOk nm)).length = 0
    · have hall : ∀ nm ∈ delete_resolve store items, deenv.deleteOk nm = true := by
        intro nm hnm
        by_contra hno
        have hmem : nm ∈ (delete_resolve store items).filter
            (fun x => !deenv.deleteOk x) := List.mem_filter.2 ⟨hnm, by simp [hno]⟩
        rw [List.length_eq_zero] at hf
        simp [hf] at hmem
      have hflag : (delete_worker_run store items deenv).1.1 = true := by
        simp [delete_worker_run, hcl, hcn, hres, hc1.2, hf]
      rw [hflag]
      simp only [true_iff]
      obtain ⟨nm, hnm⟩ := List.exists_mem_of_ne_nil _ hne
      exact ⟨nm, hnm, hall nm hnm⟩
    · have hflag : (delete_worker_run store items deenv).1.1 =
          !(((delete_resolve store items).filter deenv.deleteOk).length == 0) := by
        simp [delete_worker_run, hcl, hcn, hres, hc1.1, hc1.2, hf]
      rw [hflag]
      simp only [Bool.not_eq_true', beq_eq_false_iff_ne, Ne]
      constructor
      · intro hlen
        have hpos : 0 < ((delete_resolve store items).filter deenv.deleteOk).length :=
          Nat.pos_of_ne_zero hlen
        rw [List.length_pos] at hpos
        obtain ⟨nm, hnm⟩ := List.exists_mem_of_ne_nil _ hpos
        have hsplit := List.mem_filter.1 hnm
        exact ⟨nm, hsplit.1, hsplit.2⟩
      · rintro ⟨nm, hnm, hok⟩
        intro hlen0
        have hmem : nm ∈ (delete_resolve store items).filter deenv.deleteOk :=
          List.mem_filter.2 ⟨hnm, hok⟩
        rw [List.length_eq_zero.1 hlen0] at hmem
        simp at hmem
  · intro hcl hc hn
    have hcount := upload_loop_uncancelled uenv n hc n 0 0
    by_cases he : countOk uenv.uploadOk 0 n = n
    · have hflag : (upload_worker_run n uenv).1.1 = true := by
        simp [upload_worker_run, hcl, hcount, he]
      rw [hflag]
      simp only [true_iff]
      intro k hk
      simpa using (countOk_eq_len_iff uenv.uploadOk 0 n).1 he k hk
    · have hflag : (upload_worker_run n uenv).1.1 = false := by
        simp [upload_worker_run, hcl, hcount, he]
      rw [hflag]
      simp only [Bool.false_eq_true, false_iff]
      intro hall
      exact he ((countOk_eq_len_iff uenv.uploadOk 0 n).2
        (fun k hk => by simpa using hall k hk))

end AzureStorage
namespace AzureStorage

/-- Transfer environment: nothing cancelled, every copy succeeds. -/
def transferEnvOk : TransferRunEnv :=
  { cancelS := fun _ => false, cancelC := fun _ => false,
    result := fun _ => true, fileSize := fun _ => 4, totalBytesAt := fun _ => 0 }

/-- Download environment: nothing cancelled, every download succeeds. -/
def downloadEnvOk : DownloadEnv :=
  { ok := fun _ => true, cancelledAt := fun _ => false }

/-- C3 witness: the amended success rule applied at concrete runs — a
one-file transfer and download succeed, the three-file delete succeeds,
and the partially-successful two-file upload is reported failed. -/
theorem claim3_witness :
    (transfer_run [⟨"a.txt", false, 4⟩] transferEnvOk).1.1 = true ∧
    (download_worker_run [⟨"a.txt", false, 4⟩] downloadEnvOk).1.1 = true ∧
    (delete_worker_run storeFlat3 [dirItem] deleteEnvOk).1.1 = true ∧
    (upload_worker_run 2 uploadCexEnv).1.1 = false := by
  have h := claim3_amended_success_iff [⟨"a.txt", false, 4⟩] transferEnvOk
    [⟨"a.txt", false, 4⟩] downloadEnvOk 2 uploadCexEnv storeFlat3 [dirItem] deleteEnvOk
  refine ⟨?_, ?_, ?_, ?_⟩
  · exact (h.1 (fun _ => rfl) (fun _ => rfl) (by decide) (by decide)).2
      ⟨0, by decide, rfl⟩
  · exact (h.2.1 (fun _ => rfl) (by decide) (by decide)).2 ⟨0, by decide, rfl⟩
  · exact (h.2.2.1 rfl rfl (by decide)).2 ⟨"dir/a.txt", by decide, rfl⟩
  · have hu := h.2.2.2 rfl (fun _ => rfl) (by decide)
    cases hflag : (upload_worker_run 2 uploadCexEnv).1.1
    · rfl
    · have hone := hu.1 hflag 1 (by decide)
      simp [uploadCexEnv] at hone

end AzureStorage
namespace AzureStorage

theorem hundred_div_le (a m : Nat) (h : a ≤ m) (hm : 0 < m) : a * 100 / m ≤ 100 := by
  calc a * 100 / m ≤ m * 100 / m :=
        Nat.div_le_div_right (Nat.mul_le_mul_right 100 h)
    _ = 100 := Nat.mul_div_cancel_left 100 hm

theorem completion_loop_emits_bound (env : TransferRunEnv) (n : Nat)
    (idxs : List Nat) :
    ∀ j c b, c + idxs.length ≤ n →
      ∀ pe ∈ (completion_loop env n idxs j c b).2.2,
        pe.1 ≤ 100 ∧ (pe.2 = true → pe.1 ≤ 99) := by
  induction idxs with
  | nil =>
    intro j c b _ pe hpe
    simp [completion_loop] at hpe
  | cons i rest ih =>
    intro j c b hle pe hpe
    rw [completion_loop] at hpe
    by_cases hc : env.cancelC j = true
    · rw [if_pos hc] at hpe
      simp at hpe
    · rw [if_neg hc] at hpe
      by_cases hr : env.result i = true
      · rw [if_pos hr] at hpe
        dsimp only at hpe
        rcases List.mem_cons.1 hpe with hpe | hpe
        · subst hpe
          by_cases htb : 0 < env.totalBytesAt j
          · rw [if_pos htb]
            refine ⟨le_trans (Nat.min_le_right _ 99) (by omega), fun _ => ?_⟩
            exact Nat.min_le_right _ 99
          · rw [if_neg htb]
            have hn : 0 < n := by simp at hle; omega
            have hcn : c + 1 ≤ n := by simp at hle; omega
            refine ⟨hundred_div_le (c + 1) n hcn hn, fun hdec => ?_⟩
            rw [decide_eq_true_eq] at hdec
            exact absurd hdec htb
        · exact ih (j + 1) (c + 1) (b + env.fileSize i) (by simp at hle ⊢; omega) pe hpe
      · rw [if_neg hr] at hpe
        exact ih (j + 1) c b (by simp at hle ⊢; omega) pe hpe

theorem upload_loop_emits_bound (env : UploadEnv) (n : Nat) :
    ∀ r i c, c + r ≤ n → ∀ p ∈ (upload_loop env n i r c).2, p ≤ 100 := by
  intro r
  induction r with
  | zero =>
    intro i c _ p hp
    simp [upload_loop] at hp
  | succ m ih =>
    intro i c hle p hp
    rw [upload_loop] at hp
    by_cases hc : env.cancelledAt i = true
    · rw [if_pos hc] at hp; simp at hp
    · rw [if_neg hc] at hp
      by_cases hu : env.uploadOk i = true
      · rw [if_pos hu] at hp
        dsimp only at hp
        rcases List.mem_cons.1 hp with hp | hp
        · subst hp
          exact hundred_div_le (c + 1) n (by omega) (by omega)
        · exact ih (i + 1) (c + 1) (by omega) p hp
      · rw [if_neg hu] at hp
        exact ih (i + 1) c (by omega) p hp

theorem download_loop_emits_bound (env : DownloadEnv) (n : Nat) (l : List Blob) :
    ∀ i c, c + l.length ≤ n → ∀ p ∈ (download_loop env n l i c).2, p ≤ 100 := by
  induction l with
  | nil =>
    intro i c _ p hp
    simp [download_loop] at hp
  | cons blob rest ih =>
    intro i c hle p hp
    rw [download_loop] at hp
    by_cases hc : env.cancelledAt i = true
    · rw [if_pos hc] at hp; simp at hp
    · rw [if_neg hc] at hp
      by_cases hd : blob.isDirectory = true
      · rw [if_pos hd] at hp
        exact ih (i + 1) c (by simp at hle ⊢; omega) p hp
      · rw [if_neg hd] at hp
        by_cases hk : env.ok i = true
        · rw [if_pos hk] at hp
          dsimp only at hp
          rcases List.mem_cons.1 hp with hp | hp
          · subst hp
            exact hundred_div_le (c + 1) n (by simp at hle; omega)
              (by simp at hle; omega)
          · exact ih (i + 1) (c + 1) (by simp at hle ⊢; omega) p hp
        · rw [if_neg hk] at hp
          exact ih (i + 1) c (by simp at hle ⊢; omega) p hp

theorem delete_loop_emits_bound (env : DeleteEnv) (total : Nat) (l : List String) :
    ∀ i, i + l.length ≤ total → ∀ p ∈ (delete_loop env total l i).2.2, p ≤ 100 := by
  induction l with
  | nil =>
    intro i _ p hp
    simp [delete_loop] at hp
  | cons nm rest ih =>
    intro i hle p hp
    rw [delete_loop] at hp
    by_cases hd : env.deleteOk nm = true
    · rw [if_pos hd] at hp
      dsimp only at hp
      rcases List.mem_cons.1 hp with hp | hp
      · subst hp
        exact hundred_div_le (i + 1) total (by simp at hle; omega)
          (by simp at hle; omega)
      · exact ih (i + 1) (by simp at hle ⊢; omega) p hp
    · rw [if_neg hd] at hp
      dsimp only at hp
      exact ih (i + 1) (by simp at hle ⊢; omega) p hp

theorem submit_loop_length_le (env : TransferRunEnv) (files : List Blob) :
    (submit_loop env files).length ≤ files.length := by
  rw [submit_loop, List.length_map]
  calc (((files.enum).takeWhile (fun p => !env.cancelS p.1)).filter
          (fun p => !p.2.isDirectory)).length
      ≤ ((files.enum).takeWhile (fun p => !env.cancelS p.1)).length :=
        (List.filter_sublist _).length_le
    _ ≤ (files.enum).length := (List.takeWhile_sublist _).length_le
    _ = files.length := List.enum_length

end AzureStorage
namespace AzureStorage

theorem transfer_run_emits (files : List Blob) (env : TransferRunEnv) :
    (transfer_run files env).2.2.2 = [] ∨
    (transfer_run files env).2.2.2 =
      (completion_loop env files.length (submit_loop env files) 0 0 0).2.2 := by
  by_cases h : (files.length == 0) = true
  · left; simp [transfer_run, h]
  · right; simp [transfer_run, h]

theorem upload_run_emits (n : Nat) (uenv : UploadEnv) :
    (upload_worker_run n uenv).2 = [] ∨
    (upload_worker_run n uenv).2 = (upload_loop uenv n 0 n 0).2 := by
  cases hcl : uenv.clientOk
  · left; simp [upload_worker_run, hcl]
  · rcases hr : (upload_loop uenv n 0 n 0).1 with _ | c
    · right; simp [upload_worker_run, hcl, hr]
    · by_cases hc : (c == n) = true
      · right; simp [upload_worker_run, hcl, hr, hc]
      · right; simp [upload_worker_run, hcl, hr, hc]

theorem download_run_emits (dfiles : List Blob) (denv : DownloadEnv) :
    (download_worker_run dfiles denv).2 = [] ∨
    (download_worker_run dfiles denv).2 =
      (download_loop denv dfiles.length dfiles 0 0).2 := by
  by_cases h : (dfiles.length == 0) = true
  · left; simp [download_worker_run, h]
  · rcases hr : (download_loop denv dfiles.length dfiles 0 0).1 with _ | c
    · right; simp [download_worker_run, h, hr]
    · right; simp [download_worker_run, h, hr]

theorem delete_run_emits (store : List (String × Nat)) (items : List Blob)
    (deenv : DeleteEnv) :
    (delete_worker_run store items deenv).2.2 = [] ∨
    (delete_worker_run store items deenv).2.2 =
      (delete_loop deenv (delete_resolve store items).length
        (delete_resolve store items) 0).2.2 := by
  cases hcl : deenv.clientOk
  · left; simp [delete_worker_run, hcl]
  · cases hcn : deenv.cancelled
    · cases hres : (delete_resolve store items).isEmpty
      · by_cases hf : ((delete_loop deenv (delete_resolve store items).length
            (delete_resolve store items) 0).2.1 == 0) = true
        · right; simp [delete_worker_run, hcl, hcn, hres, hf]
        · right; simp [delete_worker_run, hcl, hcn, hres, hf]
      · left; simp [delete_worker_run, hcl, hcn, hres]
    · cases hit : items.isEmpty
      · left; simp [delete_worker_run, hcl, hcn, hit]
      · left
        have hnil : items = [] := List.isEmpty_iff.1 hit
        simp [delete_worker_run, hcl, hcn, hit, hnil, delete_resolve]

/-- C4: every progress percentage any of the four workers emits lies in
[0, 100]; for a cross-account transfer, an emission made while a nonzero
totalBytes estimate existed is byte-based and capped at 99, and one made
with no estimate is file-count-based (the recorded flag tells which
formula fired). -/
theorem claim4_progress_in_range
    (files : List Blob) (env : TransferRunEnv) (pe : Nat × Bool)
    (n : Nat) (uenv : UploadEnv) (pu : Nat)
    (dfiles : List Blob) (denv : DownloadEnv) (pd : Nat)
    (store : List (String × Nat)) (items : List Blob) (deenv : DeleteEnv)
    (pq : Nat) :
    (pe ∈ (transfer_run files env).2.2.2 →
      0 ≤ pe.1 ∧ pe.1 ≤ 100 ∧ (pe.2 = true → pe.1 ≤ 99)) ∧
    (pu ∈ (upload_worker_run n uenv).2 → 0 ≤ pu ∧ pu ≤ 100) ∧
    (pd ∈ (download_worker_run dfiles denv).2 → 0 ≤ pd ∧ pd ≤ 100) ∧
    (pq ∈ (delete_worker_run store items deenv).2.2 → 0 ≤ pq ∧ pq ≤ 100) := by
  refine ⟨?_, ?_, ?_, ?_⟩
  · intro hm
    rcases transfer_run_emits files env with he | he
    · rw [he] at hm; simp at hm
    · rw [he] at hm
      have hb := completion_loop_emits_bound env files.length
        (submit_loop env files) 0 0 0
        (by simpa using submit_loop_length_le env files) pe hm
      exact ⟨Nat.zero_le _, hb.1, hb.2⟩
  · intro hm
    rcases upload_run_emits n uenv with he | he
    · rw [he] at hm; simp at hm
    · rw [he] at hm
      exact ⟨Nat.zero_le _, upload_loop_emits_bound uenv n n 0 0 (by omega) pu hm⟩
  · intro hm
    rcases download_run_emits dfiles denv with he | he
    · rw [he] at hm; simp at hm
    · rw [he] at hm
      exact ⟨Nat.zero_le _, download_loop_emits_bound denv dfiles.length dfiles 0 0
        (by omega) pd hm⟩
  · intro hm
    rcases delete_run_emits store items deenv with he | he
    · rw [he] at hm; simp at hm
    · rw [he] at hm
      exact ⟨Nat.zero_le _, delete_loop_emits_bound deenv
        (delete_resolve store items).length (delete_resolve store items) 0
        (by omega) pq hm⟩

/-- C4 witness: the bound applied to concrete emissions of the four
workers — the one-file transfer emits (100, file-count-based), the
partial upload emits 50, the one-file download 100, the three-file
delete 33. -/
theorem claim4_witness :
    (0 ≤ (100, false).1 ∧ (100, false).1 ≤ 100 ∧
      ((100, false).2 = true → (100, false).1 ≤ 99)) ∧
    (0 ≤ 50 ∧ 50 ≤ 100) ∧ (0 ≤ 100 ∧ 100 ≤ 100) ∧ (0 ≤ 33 ∧ 33 ≤ 100) := by
  have h := claim4_progress_in_range [⟨"a.txt", false, 4⟩] transferEnvOk (100, false)
    2 uploadCexEnv 50 [⟨"a.txt", false, 4⟩] downloadEnvOk 100
    storeFlat3 [dirItem] deleteEnvOk 33
  exact ⟨h.1 (by decide), h.2.1 (by decide), h.2.2.1 (by decide),
    h.2.2.2 (by decide)⟩

end AzureStorage
namespace AzureStorage

/-- A one-level-or-deeper prefix listing under dir/. -/
def demoListing : List Blob :=
  [⟨"dir/f1.txt", false, 5⟩, ⟨"dir/sub/", true, 0⟩, ⟨"dir/sub/a.txt", false, 3⟩]

/-- C7 witness: the characterisation applied to a concrete listing —
the direct child file is kept, the file one level deeper is not. -/
theorem claim7_witness :
    (⟨"dir/f1.txt", false, 5⟩ : Blob) ∈ fetch_directory_contents "dir/" demoListing ∧
    (⟨"dir/sub/a.txt", false, 3⟩ : Blob) ∉ fetch_directory_contents "dir/" demoListing := by
  constructor
  · exact (claim7_children_one_level "dir/" demoListing (by decide) _).2
      ⟨by decide, by decide, by decide, by decide⟩
  · intro hmem
    have hch := (claim7_children_one_level "dir/" demoListing (by decide) _).1 hmem
    exact absurd (hch.2.2.2 rfl) (by decide)

/-- Cancellation state of a SizeCalculatorWorker instance. -/
structure SizeCalcState where
  cancelled : Bool
deriving DecidableEq, Repr

/-- The mutable fields of a TransferWorker that the cancellation claims
concern. -/
structure TransferWorkerState where
  cancelled : Bool
  sizeCalculator : Option SizeCalcState
  totalBytes : Nat
  sizeCalculationComplete : Bool
  completedFiles : Nat
  bytesTransferred : Nat
deriving DecidableEq, Repr

/-- TransferWorker.cancel (workers.py 214-218): sets the job flag and
cancels the size calculator when one exists. -/
def transfer_cancel (s : TransferWorkerState) : TransferWorkerState :=
  { s with cancelled := true,
           sizeCalculator := s.sizeCalculator.map (fun c => { c with cancelled := true }) }

/-- Every assignment TransferWorker performs on its own state after
construction: cancel; run creating the size calculator; the two
size-calculation callbacks; the counter update after a completed file.
No step ever writes cancelled back to false. -/
inductive WorkerStep : TransferWorkerState → TransferWorkerState → Prop
  | cancel (s) : WorkerStep s (transfer_cancel s)
  | createCalculator (s) :
      WorkerStep s { s with sizeCalculator := some { cancelled := false } }
  | sizeBatch (s) (t : Nat) : WorkerStep s { s with totalBytes := t }
  | sizeComplete (s) (t : Nat) :
      WorkerStep s { s with totalBytes := t, sizeCalculationComplete := true }
  | fileDone (s) (sz : Nat) :
      WorkerStep s { s with completedFiles := s.completedFiles + 1,
                            bytesTransferred := s.bytesTransferred + sz }

/-- Character-list substring test (kernel-reducible). -/
def listContainsSub (needle : List Char) : List Char → Bool
  | [] => needle.isEmpty
  | c :: cs => charsPre needle (c :: cs) || listContainsSub needle cs

/-- Modelled from the spec: a completion message that announces the
distinct Cancelled terminal outcome.  The workers that do report
cancellation all say so in the message ("Download cancelled",
"Upload cancelled by user", "Deletion cancelled by user"), so a
Cancelled outcome is one whose message contains the word
cancelled/Cancelled. -/
def mentionsCancelled (msg : String) : Bool :=
  listContainsSub "ancelled".toList msg.toList

/-- A transfer environment in which the cancellation flag is set from
the start. -/
def cancelledEnv : TransferRunEnv :=
  { cancelS := fun _ => true, cancelC := fun _ => true,
    result := fun _ => false, fileSize := fun _ => 0, totalBytesAt := fun _ => 0 }

/-- C9 counterexample: a transfer job cancelled before any work starts
still emits the ordinary completion event — success false with the
"Successfully transferred 0/1 files (0 B)" summary — and that message
does not announce a Cancelled outcome, unlike the cancellation messages
of the other workers (last two conjuncts). -/
theorem claim9_counterexample :
    transfer_run [⟨"a.txt", false, 4⟩] cancelledEnv =
      ((false, "Successfully transferred 0/1 files (0 B)"), 0, 0, []) ∧
    mentionsCancelled "Successfully transferred 0/1 files (0 B)" = false ∧
    mentionsCancelled "Download cancelled" = true ∧
    mentionsCancelled "Upload cancelled by user" = true ∧
    mentionsCancelled "Deletion cancelled by user" = true := by
  decide

end AzureStorage
namespace AzureStorage

/-- C9 amended: after cancel is invoked the flag (which no state
transition ever resets) stops all new work — the submission loop submits
nothing at or past the first cancelled read, and the poll loop performs
no poll at or past the first cancelled read — and cancel also cancels
the associated size-calculator instance; but the job then reports the
ordinary completion event carrying the counts of whatever completed
(success iff at least one file completed), not a distinct Cancelled
outcome: a job cancelled from the start still ends with success false
and the "Successfully transferred 0/n files (0 B)" summary. -/
theorem claim9_amended_cancellation
    (s s' : TransferWorkerState) (c : SizeCalcState)
    (env : TransferRunEnv) (files : List Blob) (k : Nat) (penv : PollEnv) :
    (WorkerStep s s' → s.cancelled = true → s'.cancelled = true) ∧
    ((transfer_cancel s).cancelled = true ∧
      (s.sizeCalculator = some c →
        (transfer_cancel s).sizeCalculator = some { cancelled := true })) ∧
    ((∀ a b, a ≤ b → env.cancelS a = true → env.cancelS b = true) →
      env.cancelS k = true → ∀ i ∈ submit_loop env files, i < k) ∧
    ((∀ a b, a ≤ b → penv.cancelledAt a = true → penv.cancelledAt b = true) →
      penv.cancelledAt k = true →
      ∀ fuel i j, j ∈ (poll_copy penv i fuel).2 → j < k) ∧
    (0 < files.length → env.cancelS = (fun _ => true) →
      (transfer_run files env).1.1 = false ∧
      (transfer_run files env).2.1 = 0 ∧
      (transfer_run files env).2.2.1 = 0 ∧
      (transfer_run files env).2.2.2 = [] ∧
      (transfer_run files env).1.2 =
        s!"Successfully transferred {(transfer_run files env).2.1}/{files.length} files ({format_size (transfer_run files env).2.2.1})" ∧
      format_size 0 = "0 B") := by
  refine ⟨?_, ?_, ?_, ?_, ?_⟩
  · intro hstep hc
    cases hstep <;> simp [transfer_cancel, hc]
  · exact ⟨rfl, fun hsc => by simp [transfer_cancel, hsc]⟩
  · intro hmono hk i hi
    rw [submit_loop] at hi
    obtain ⟨p, hp, hpi⟩ := List.mem_map.1 hi
    have hpt := (List.mem_filter.1 hp).1
    have hpred := List.mem_takeWhile_imp hpt
    have hcf : env.cancelS p.1 = false := by simpa using hpred
    subst hpi
    by_contra hge
    have := hmono k p.1 (by omega) hk
    rw [this] at hcf
    exact Bool.noConfusion hcf
  · intro hmono hk fuel
    induction fuel with
    | zero =>
      intro i j hj
      simp [poll_copy] at hj
    | succ m2 ih =>
      intro i j hj
      rw [poll_copy] at hj
      by_cases hc2 : penv.cancelledAt i = true
      · rw [if_pos hc2] at hj
        simp at hj
      · rw [if_neg hc2] at hj
        have hik : i < k := by
          by_contra hge
          exact hc2 (hmono k i (by omega) hk)
        dsimp only at hj
        by_cases hs1 : (penv.statusAt i == "success") = true
        · rw [if_pos hs1] at hj
          simp at hj
          omega
        · rw [if_neg hs1] at hj
          by_cases hs2 : (penv.statusAt i == "failed") = true
          · rw [if_pos hs2] at hj
            simp at hj
            omega
          · rw [if_neg hs2] at hj
            by_cases hs3 : ((penv.statusAt i == "pending") ||
                (penv.statusAt i == "copying")) = true
            · rw [if_pos hs3] at hj
              dsimp only at hj
              rcases List.mem_cons.1 hj with hj | hj
              · omega
              · exact ih (i + 1) j hj
            · rw [if_neg hs3] at hj
              simp at hj
              omega
  · intro hlen hcs
    have hsub : submit_loop env files = [] := by
      rw [submit_loop, hcs]
      cases hfe : files.enum with
      | nil => rfl
      | cons a l => simp [List.takeWhile_cons]
    have hn0 : ¬(files.length == 0) = true := by
      simp only [beq_iff_eq]
      omega
    rw [transfer_run, if_neg hn0, hsub]
    exact ⟨rfl, rfl, rfl, rfl, rfl, rfl⟩

end AzureStorage
namespace AzureStorage

/-- An uncancelled size-calculator instance. -/
def calcState : SizeCalcState := { cancelled := false }

/-- A worker state on which cancel has been requested, owning a (not
yet cancelled) size calculator. -/
def cancelledState : TransferWorkerState :=
  { cancelled := true, sizeCalculator := some calcState, totalBytes := 0,
    sizeCalculationComplete := false, completedFiles := 0, bytesTransferred := 0 }

/-- A poll environment whose cancellation flag is set from the start. -/
def cancelPollEnv : PollEnv :=
  { statusAt := fun _ => "pending", cancelledAt := fun _ => true }

/-- C9 witness: the amended cancellation facts at concrete inputs — a
cancel call leaves the flag set and cancels the calculator, a job
cancelled from index 0 submits nothing and polls nothing, and the
cancelled one-file run completes with success false. -/
theorem claim9_witness :
    (transfer_cancel cancelledState).cancelled = true ∧
    (transfer_cancel cancelledState).sizeCalculator = some { cancelled := true } ∧
    (∀ i ∈ submit_loop cancelledEnv [⟨"a.txt", false, 4⟩], i < 0) ∧
    (∀ j ∈ (poll_copy cancelPollEnv 0 7).2, j < 0) ∧
    (transfer_run [⟨"a.txt", false, 4⟩] cancelledEnv).1.1 = false := by
  have h := claim9_amended_cancellation cancelledState
    (transfer_cancel cancelledState) calcState cancelledEnv
    [⟨"a.txt", false, 4⟩] 0 cancelPollEnv
  exact ⟨h.1 (WorkerStep.cancel _) rfl, h.2.1.2 rfl,
    h.2.2.1 (fun a b _ hh => hh) rfl,
    fun j hj => h.2.2.2.1 (fun a b _ _ => rfl) rfl 7 0 j hj,
    (h.2.2.2.2 (by decide) rfl).1⟩

/-- Environment of a size-calculation run: client acquisition outcome
and the per-key metadata probe (none models a raised exception). -/
structure SizeEnv where
  clientOk : Bool
  probe : String → Option Nat

/-- Size recorded for one working-set entry by
SizeCalculatorWorker._worker_function: directories get 0 without a
probe, a successful probe records the reported size, a failed probe
records 0. -/
def recorded_size (env : SizeEnv) (b : Blob) : Nat :=
  if b.isDirectory then 0
  else match env.probe b.name with
       | some sz => sz
       | none => 0

/-- SizeCalculatorWorker._worker_function (workers.py 560-606) over one
chunk of an uncancelled run: the chunk subtotal, the (key, size) writes
performed into the blob dicts, and the keys probed — in order. -/
def worker_function (env : SizeEnv) : List Blob → Nat × List (String × Nat) × List String
  | [] => (0, [], [])
  | b :: rest =>
    let size := if b.isDirectory then 0
                else match env.probe b.name with
                     | some sz => sz
                     | none => 0
    let probes := if b.isDirectory then ([] : List String) else [b.name]
    let r := worker_function env rest
    (size + r.1, (b.name, size) :: r.2.1, probes ++ r.2.2)

/-- Static chunking of SizeCalculatorWorker.run (workers.py 624-629):
files[i : i + cs] for i in range(0, len(files), cs), written with the
list length as explicit fuel. -/
def chunk_go (cs : Nat) : Nat → List Blob → List (List Blob)
  | 0, _ => []
  | _, [] => []
  | fuel + 1, x :: xs => ((x :: xs).take cs) :: chunk_go cs fuel ((x :: xs).drop cs)

/-- The chunk partition of the working set. -/
def chunk_list (files : List Blob) (cs : Nat) : List (List Blob) :=
  chunk_go cs files.length files

/-- SizeCalculatorWorker.run (workers.py 608-659) for an uncancelled
run: chunk size max(1, n // maxWorkers), one worker per chunk, and the
final emitted total is the mutex-protected running total after every
worker finished.  Writes and probes are listed in chunk order; the true
thread interleaving permutes the mutex additions, which leaves the sum
unchanged. -/
def size_calculator_run (env : SizeEnv) (files : List Blob) (maxWorkers : Nat) :
    Nat × List (String × Nat) × List String :=
  if !env.clientOk then (0, [], [])
  else
    let cs := max 1 (files.length / maxWorkers)
    let results := (chunk_list files cs).map (worker_function env)
    ((results.map (fun r => r.1)).sum,
     (results.map (fun r => r.2.1)).flatten,
     (results.map (fun r => r.2.2)).flatten)

theorem chunk_go_join (cs : Nat) (hcs : 0 < cs) :
    ∀ (fuel : Nat) (xs : List Blob), xs.length ≤ fuel →
      (chunk_go cs fuel xs).flatten = xs := by
  intro fuel
  induction fuel with
  | zero =>
    intro xs hxs
    rw [Nat.le_zero, List.length_eq_zero] at hxs
    subst hxs
    rfl
  | succ m ih =>
    intro xs hxs
    cases xs with
    | nil => rfl
    | cons x rest =>
      rw [chunk_go, List.flatten_cons, ih ((x :: rest).drop cs) (by simp at hxs ⊢; omega),
        List.take_append_drop]

theorem worker_function_spec (env : SizeEnv) (l : List Blob) :
    worker_function env l =
      ((l.map (recorded_size env)).sum,
       l.map (fun b => (b.name, recorded_size env b)),
       (l.filter (fun b => !b.isDirectory)).map Blob.name) := by
  induction l with
  | nil => rfl
  | cons b rest ih =>
    simp only [worker_function]
    rw [ih]
    cases hd : b.isDirectory
    · have hsz : recorded_size env b =
          (match env.probe b.name with | some sz => sz | none => 0) := by
        simp [recorded_size, hd]
      simp only [List.map_cons, List.sum_cons, List.filter_cons, hd, hsz,
        Bool.not_false, Bool.not_true, if_true, if_false, Bool.false_eq_true,
        List.singleton_append, List.nil_append]
    · have hsz : recorded_size env b = 0 := by simp [recorded_size, hd]
      simp only [List.map_cons, List.sum_cons, List.filter_cons, hd, hsz,
        Bool.not_false, Bool.not_true, if_true, if_false, Bool.false_eq_true,
        List.singleton_append, List.nil_append]

theorem join_map_fst_sum (L : List (List Blob)) (f : Blob → Nat) :
    ((L.map (fun ch => (ch.map f).sum)).sum) = ((L.flatten.map f).sum) := by
  induction L with
  | nil => rfl
  | cons ch rest ih =>
    simp only [List.map_cons, List.sum_cons, List.flatten_cons, List.map_append,
      List.sum_append, ih]

theorem join_map_map (L : List (List Blob)) (g : Blob → String × Nat) :
    (L.map (fun ch => ch.map g)).flatten = L.flatten.map g := by
  induction L with
  | nil => rfl
  | cons ch rest ih =>
    simp only [List.map_cons, List.flatten_cons, List.map_append, ih]

theorem join_map_filter_map (L : List (List Blob)) (p : Blob → Bool) :
    (L.map (fun ch => (ch.filter p).map Blob.name)).flatten =
      (L.flatten.filter p).map Blob.name := by
  induction L with
  | nil => rfl
  | cons ch rest ih =>
    simp only [List.map_cons, List.flatten_cons, List.filter_append,
      List.map_append, ih]

/-- C10: the static chunking partitions the working set exactly — the
chunks concatenate back to the file list — and consequently an
uncancelled run probes each non-directory entry exactly once in working
set order, writes each entry size field exactly once (0 for directories
and failed probes, the probed size otherwise), and emits as final total
exactly the sum of the sizes so recorded. -/
theorem claim10_chunking_partitions (env : SizeEnv) (files : List Blob)
    (maxWorkers : Nat) (hcl : env.clientOk = true) :
    (chunk_list files (max 1 (files.length / maxWorkers))).flatten = files ∧
    size_calculator_run env files maxWorkers =
      ((files.map (recorded_size env)).sum,
       files.map (fun b => (b.name, recorded_size env b)),
       (files.filter (fun b => !b.isDirectory)).map Blob.name) := by
  have hjoin : (chunk_list files (max 1 (files.length / maxWorkers))).flatten = files :=
    chunk_go_join (max 1 (files.length / maxWorkers)) (by omega) files.length files
      le_rfl
  refine ⟨hjoin, ?_⟩
  rw [size_calculator_run]
  rw [if_neg (by simp [hcl])]
  have hmap : (chunk_list files (max 1 (files.length / maxWorkers))).map
      (worker_function env) =
      (chunk_list files (max 1 (files.length / maxWorkers))).map
        (fun ch => ((ch.map (recorded_size env)).sum,
          ch.map (fun b => (b.name, recorded_size env b)),
          (ch.filter (fun b => !b.isDirectory)).map Blob.name)) :=
    List.map_congr_left (fun ch _ => worker_function_spec env ch)
  simp only [hmap]
  rw [List.map_map, List.map_map, List.map_map]
  refine congrArg₂ Prod.mk ?_ (congrArg₂ Prod.mk ?_ ?_)
  · have := join_map_fst_sum (chunk_list files (max 1 (files.length / maxWorkers)))
      (recorded_size env)
    simpa [hjoin, Function.comp] using this
  · have := join_map_map (chunk_list files (max 1 (files.length / maxWorkers)))
      (fun b => (b.name, recorded_size env b))
    simpa [hjoin, Function.comp] using this
  · have := join_map_filter_map (chunk_list files (max 1 (files.length / maxWorkers)))
      (fun b => !b.isDirectory)
    simpa [hjoin, Function.comp] using this

end AzureStorage
namespace AzureStorage

/-- Counters before anything was transferred. -/
def zeroInput : SpeedEtaInput :=
  { hasStart := true, elapsed := 0, bytesTransferred := 0, totalBytes := 0,
    completedFiles := 0, totalFiles := 4, sizeCalculationComplete := false }

/-- Counters of a running job with no size estimate yet: 100 bytes in
2 s, 1 of 4 files done. -/
def posInput : SpeedEtaInput :=
  { hasStart := true, elapsed := 2, bytesTransferred := 100, totalBytes := 0,
    completedFiles := 1, totalFiles := 4, sizeCalculationComplete := false }

/-- C5 witness: the policy applied to concrete counters — zero bytes
reads as the zero rate with indeterminate ETA; the running job gets the
positive speed and the file-count fallback ETA. -/
theorem claim5_witness :
    (calculate_speed_and_eta zeroInput).1 = Rate.zero ∧
    (calculate_speed_and_eta zeroInput).2.1 = Eta.calculating ∧
    (calculate_speed_and_eta posInput).1 =
      Rate.bps ((posInput.bytesTransferred : ℚ) / posInput.elapsed) ∧
    (calculate_speed_and_eta posInput).2.1 =
      Eta.seconds (((posInput.totalFiles : ℚ) - (posInput.completedFiles : ℚ)) /
        ((posInput.completedFiles : ℚ) / posInput.elapsed)) := by
  have h0 := claim5_speed_eta_policy zeroInput
  have h1 := claim5_speed_eta_policy posInput
  exact ⟨(h0.1 (Or.inr (Or.inl rfl))).1, (h0.1 (Or.inr (Or.inl rfl))).2,
    (h1.2 rfl (by decide) (by norm_num [posInput])).2.1,
    (h1.2 rfl (by decide) (by norm_num [posInput])).2.2.2.1 rfl (by decide) (by decide)⟩

/-- A probe environment knowing sizes for a and b only. -/
def sizeEnvDemo : SizeEnv :=
  { clientOk := true,
    probe := fun nm => if nm == "a" then some 5 else if nm == "b" then some 7 else none }

/-- A three-entry working set: two files and a directory. -/
def demoFiles : List Blob :=
  [⟨"a", false, 0⟩, ⟨"d/", true, 0⟩, ⟨"b", false, 0⟩]

/-- C10 witness: the partition and aggregation facts at a concrete
working set split over 2 workers, with the concrete outcome evaluated:
total 12, one write per entry, one probe per file. -/
theorem claim10_witness :
    (chunk_list demoFiles (max 1 (demoFiles.length / 2))).flatten = demoFiles ∧
    size_calculator_run sizeEnvDemo demoFiles 2 =
      ((demoFiles.map (recorded_size sizeEnvDemo)).sum,
       demoFiles.map (fun b => (b.name, recorded_size sizeEnvDemo b)),
       (demoFiles.filter (fun b => !b.isDirectory)).map Blob.name) ∧
    size_calculator_run sizeEnvDemo demoFiles 2 =
      (12, [("a", 5), ("d/", 0), ("b", 7)], ["a", "b"]) := by
  refine ⟨(claim10_chunking_partitions sizeEnvDemo demoFiles 2 rfl).1,
    (claim10_chunking_partitions sizeEnvDemo demoFiles 2 rfl).2, by decide⟩

end AzureStorage
